import Mathlib

/-!
Verification of the `finn_car_search` field-extraction engine (`src/scraper.py`).

The Python code is shallowly embedded as follows.

* Dynamic Python/JSON values become the inductive `PyVal`; Python truthiness
  becomes `PyVal.truthy` and the Python `a or b` operator becomes `pyOr`.
* A parsed HTML document (a BeautifulSoup object) is abstracted as a `Soup`
  structure whose fields record the results of exactly the BeautifulSoup
  queries the scraper performs; a missing node is `none`.  All text
  post-processing (`.replace`, `int(...)`, substring search, splitting) after
  the query results is modelled directly on strings.
* The external library decoding stages (`base64.b64decode` + `.decode("utf-8")`
  + `urllib.parse.unquote`, and `json.loads`) are collected in a `Codec`
  parameter: each is a function returning `Option` (`none` = the library call
  raised).
* Fallible Python code returns `Except String`; a raised-and-uncaught
  exception is `.error`.  The assembly loop's `try`/`except` is the
  `DocResult` case split in `processDoc`.
-/

/-- A dynamic Python value, as produced by `json.loads` and passed around the
scraper.  Dictionaries are association lists in insertion order. -/
inductive PyVal where
  | none
  | bool (b : Bool)
  | int (n : Int)
  | str (s : String)
  | list (xs : List PyVal)
  | dict (entries : List (String × PyVal))

/-- Python truthiness (`bool(v)`): `None`, `False`, `0`, `""`, `[]`, `{}` are
falsy, everything else modelled here is truthy. -/
def PyVal.truthy : PyVal → Bool
  | .none => false
  | .bool b => b
  | .int n => decide (n ≠ 0)
  | .str s => decide (s ≠ "")
  | .list xs => !xs.isEmpty
  | .dict es => !es.isEmpty

/-- Python `a or b` (both operands already evaluated): `a` if truthy else `b`. -/
def pyOr (a b : PyVal) : PyVal := if a.truthy then a else b

/-- Python `d.get(k, dflt)`: on a dict, the stored value (which may itself be
`None`) when the key is present, else the default; on any non-dict value the
attribute access raises (`AttributeError`). -/
def PyVal.getD : PyVal → String → PyVal → Except String PyVal
  | .dict es, k, dflt => .ok ((List.lookup k es).getD dflt)
  | _, _, _ => .error "AttributeError: get on non-dict"

/-- Python `d.get(k)` (default `None`). -/
def PyVal.get (v : PyVal) (k : String) : Except String PyVal := v.getD k .none

/-- Python subscript `d[k]` as used under a broad `except`: a missing key or a
non-dict raises, which the caller turns into `None`; so model it as `Option`. -/
def pySub (o : Option PyVal) (k : String) : Option PyVal :=
  o.bind fun v =>
    match v with
    | .dict es => List.lookup k es
    | _ => Option.none

/-- Strip `pat` from the front of `l`, returning the remainder when `pat` is
an initial segment. -/
def stripPre? : List Char → List Char → Option (List Char)
  | [], l => some l
  | _ :: _, [] => Option.none
  | p :: ps, c :: cs => if p = c then stripPre? ps cs else Option.none

def replaceFuel (pat repl : List Char) : Nat → List Char → List Char
  | 0, l => l
  | _ + 1, [] => []
  | fuel + 1, c :: rest =>
    match stripPre? pat (c :: rest) with
    | some tail => repl ++ replaceFuel pat repl fuel tail
    | Option.none => c :: replaceFuel pat repl fuel rest

/-- Python `s.replace(pat, repl)` for the non-empty patterns the scraper uses:
non-overlapping occurrences, left to right. -/
def pyReplace (s pat repl : String) : String :=
  ⟨replaceFuel pat.data repl.data s.data.length s.data⟩

def splitFuel (sep : List Char) : Nat → List Char → List (List Char)
  | 0, l => [l]
  | _ + 1, [] => [[]]
  | fuel + 1, c :: rest =>
    match stripPre? sep (c :: rest) with
    | some tail => [] :: splitFuel sep fuel tail
    | Option.none =>
      match splitFuel sep fuel rest with
      | [] => [[c]]
      | h :: t => (c :: h) :: t

/-- Python `s.split(sep)` for a non-empty separator. -/
def pySplit (s sep : String) : List String :=
  (splitFuel sep.data s.data.length s.data).map String.mk

/-- Python `sep.join(xs)`. -/
def pyJoin (sep : String) : List String → String
  | [] => ""
  | [x] => x
  | x :: y :: t => x ++ sep ++ pyJoin sep (y :: t)

/-- Python `s.lower()` (ASCII case folding, enough for the needles used). -/
def pyLower (s : String) : String := ⟨s.data.map Char.toLower⟩

/-- Python `s.strip()` as performed by `int(...)` on its string argument. -/
def pyStrip (cs : List Char) : List Char :=
  ((cs.dropWhile Char.isWhitespace).reverse.dropWhile Char.isWhitespace).reverse

/-- Digits-only string to `Nat`. -/
def digitsToNat? (cs : List Char) : Option Nat :=
  if cs.isEmpty then Option.none
  else if cs.all Char.isDigit then
    some (cs.foldl (fun acc c => acc * 10 + (c.toNat - 48)) 0)
  else Option.none

/-- Python `int(s)` on a string: strips surrounding whitespace, allows an
optional sign, then requires a non-empty run of digits; anything else raises
(`ValueError`), modelled as `none`. -/
def pyInt? (s : String) : Option Int :=
  match pyStrip s.data with
  | [] => Option.none
  | c :: cs =>
    if c = '-' then (digitsToNat? cs).map (fun n => -(n : Int))
    else if c = '+' then (digitsToNat? cs).map (fun n => (n : Int))
    else (digitsToNat? (c :: cs)).map (fun n => (n : Int))

/-- Python `int(v)` on a dynamic value (as applied to the horseshoe-config
JSON field): ints pass through, numeric strings are parsed, `True`/`False`
give `1`/`0`; anything else raises, modelled as `none`. -/
def pyIntOfVal : PyVal → Option Int
  | .int n => some n
  | .str s => pyInt? s
  | .bool b => some (if b then 1 else 0)
  | _ => Option.none

/-- Python `needle in hay` for strings (the needles used are all non-empty;
for the empty needle Python answers `True`). -/
def pyContains (needle hay : String) : Bool :=
  if needle = "" then true else (pySplit hay needle).length ≠ 1

/-- Lift `Option PyVal` (a Python variable that may be `None`) to `PyVal`. -/
def optToVal : Option PyVal → PyVal := fun o => o.getD .none

def optIntToVal : Option Int → PyVal
  | Option.none => .none
  | some n => .int n

def optStrToVal : Option String → PyVal
  | Option.none => .none
  | some s => .str s

def optListStrToVal : Option (List String) → PyVal
  | Option.none => .none
  | some xs => .list (xs.map .str)

/-! ## The output schema (`class Ad(BaseModel)`) and pydantic coercion -/

/-- `class Ad(BaseModel)` from `scraper.py`: every field is `T | None`. -/
structure Ad where
  model_year : Option Int
  model_km : Option Int
  price : Option Int
  tldr : Option String
  brand : Option String
  model : Option String
  id : Option Int
  link : Option String
  safety_elements : Option (List String)
  is_leasing : Option Bool
deriving DecidableEq, Repr

/-- pydantic (lax-mode) validation of an `int | None` field: `None` and ints
pass, numeric strings are coerced, everything else fails validation. -/
def coerceIntOpt : PyVal → Except String (Option Int)
  | .none => .ok Option.none
  | .int n => .ok (some n)
  | .str s =>
    match pyInt? s with
    | some n => .ok (some n)
    | Option.none => .error "validation: int"
  | _ => .error "validation: int"

/-- pydantic validation of a `str | None` field: `None` and strings pass,
everything else fails (v2 does not coerce numbers to strings). -/
def coerceStrOpt : PyVal → Except String (Option String)
  | .none => .ok Option.none
  | .str s => .ok (some s)
  | _ => .error "validation: str"

/-- pydantic validation of a `bool | None` field.  In the scraper the value
reaching this field is always `None` or an actual bool (see `is_leasing`), so
only those are modelled; other inputs fail validation. -/
def coerceBoolOpt : PyVal → Except String (Option Bool)
  | .none => .ok Option.none
  | .bool b => .ok (some b)
  | _ => .error "validation: bool"

/-- pydantic validation of the elements of a `List[str]` field. -/
def coerceStrList : List PyVal → Except String (List String)
  | [] => .ok []
  | .str s :: rest => (coerceStrList rest).map (fun xs => s :: xs)
  | _ :: _ => .error "validation: list element not str"

/-- pydantic validation of a `List[str] | None` field. -/
def coerceListStrOpt : PyVal → Except String (Option (List String))
  | .none => .ok Option.none
  | .list xs => (coerceStrList xs).map some
  | _ => .error "validation: list"

/-! ## The document abstraction -/

/-- The library decoding stages used by the scraper, supplied as parameters:
`b64unquote` is `base64.b64decode` followed by `.decode("utf-8")` and
`urllib.parse.unquote` (`none` when any of the three raises, e.g. malformed
base64 or invalid UTF-8); `jloads` is `json.loads` (`none` when the text is
not valid JSON). -/
structure Codec where
  b64unquote : String → Option String
  jloads : String → Option PyVal

/-- A parsed ad document.  Each field is the result of the exact BeautifulSoup
query chain the scraper runs; `none` records that some node in the chain was
missing (in Python: `find` returned `None`, so the chained access raises
`AttributeError` inside the extractor's `try`).

* `dataProps`: the `data-props` attribute value of the first element carrying
  that attribute (`soup.find(attrs={"data-props": True})`), `none` when no
  element has it.
* `topRow label`: `get_text(strip=True)` of the `div.u-strong` next sibling of
  the `div` whose string is `label`; `none` when either node is missing.
* `tldr`: `get_text(strip=True)` of the `p` next sibling of the first `h1`.
* `totalpris`: `get_text(strip=True)` of the `span.u-t3` next sibling of the
  `span` with string "Totalpris".
* `horseshoe`: the string content of `script#horseshoe-config` (`none` when
  the tag is missing or `script_tag.string` is `None`).
* `carSearchAnchors`: `(get_text(strip=True), href)` of each `a#carSearchLink`.
* `safetyUl`: texts of `li p.u-strong` inside the `ul` landmark found by
  aria-label "Trygghetselementer", class and role; `none` when the `ul` is
  missing.
* `fullText`: `soup.get_text()`. -/
structure Soup where
  dataProps : Option String
  topRow : String → Option String
  tldr : Option String
  totalpris : Option String
  horseshoe : Option String
  carSearchAnchors : List (String × String)
  safetyUl : Option (List String)
  fullText : String

/-! ## Legacy field extractors -/

/-- `get_top_row_item(item, soup)`: label/next-sibling lookup, then
`int(text.replace("\xa0", "").replace(" km", ""))`; any failure is caught and
yields `None`. -/
def get_top_row_item (item : String) (soup : Soup) : Option Int :=
  match soup.topRow item with
  | some text => pyInt? (pyReplace (pyReplace text "\xA0" "") " km" "")
  | Option.none => Option.none

/-- `get_model_year = partial(get_top_row_item, "Modellår")` -/
def get_model_year : Soup → Option Int := get_top_row_item "Modellår"

/-- `get_model_km = partial(get_top_row_item, "Kilometer")` -/
def get_model_km : Soup → Option Int := get_top_row_item "Kilometer"

/-- `get_tldr(soup)`: first `h1`'s next sibling `p` text; `None` on failure. -/
def get_tldr (soup : Soup) : Option String := soup.tldr

/-- `get_price(soup)`: first the "Totalpris" sibling `span.u-t3`, cleaned of
"\xa0", " kr" and spaces and parsed as int; if that raises, the
`horseshoe-config` script's JSON, field `["xandr"]["feed"]["pris"]`, through
`int(...)`; any failure of the alternative yields `None`. -/
def get_price (cx : Codec) (soup : Soup) : Option Int :=
  let primary : Option Int :=
    match soup.totalpris with
    | some t =>
      pyInt? (pyReplace (pyReplace (pyReplace t "\xA0" "") " kr" "") " " "")
    | Option.none => Option.none
  match primary with
  | some n => some n
  | Option.none =>
    match soup.horseshoe with
    | some s =>
      match cx.jloads s with
      | some j => (pySub (pySub (pySub (some j) "xandr") "feed") "pris").bind pyIntOfVal
      | Option.none => Option.none
    | Option.none => Option.none

/-- `get_brand_type_id(soup)`: the two `a#carSearchLink` anchors give
`(make_text, model_text without its first space-delimited token, the part of
the second anchor's href after "model=")`; any failure (fewer than two
anchors, no "model=" in the href) yields `(None, None, None)`. -/
def get_brand_type_id (soup : Soup) :
    Option String × Option String × Option String :=
  match soup.carSearchAnchors with
  | a0 :: a1 :: _ =>
    match (pySplit a1.2 "model=").get? 1 with
    | some mid =>
      (some a0.1, some (pyJoin " " ((pySplit a1.1 " ").drop 1)), some mid)
    | Option.none => (Option.none, Option.none, Option.none)
  | _ => (Option.none, Option.none, Option.none)

/-- `get_safty_elements(soup)` (source spelling): the texts inside the
safety-elements `ul` landmark, `None` when the landmark is missing. -/
def get_safty_elements (soup : Soup) : Option (List String) := soup.safetyUl

/-- `get_leasing(soup)`: `"Månedspris" in soup.get_text()`. -/
def get_leasing (soup : Soup) : Bool := pyContains "Månedspris" soup.fullText

/-! ## Payload decoder -/

/-- The observable outcome of `decode_props_payload`.  In Python the function
returns `None` both when no payload attribute is present and when decoding
fails, but the failing path additionally logs ("Failed to decode data-props
payload"); the two constructors keep that distinction observable, and
`DecodeOutcome.toOption` is the Python return value. -/
inductive DecodeOutcome where
  | noPayload
  | decodeFailure
  | ok (j : PyVal)

/-- The `dict | None` actually returned to the caller. -/
def DecodeOutcome.toOption : DecodeOutcome → Option PyVal
  | .ok j => some j
  | _ => Option.none

/-- `decode_props_payload(soup)`: no element with a `data-props` attribute, or
an empty attribute value, is "no payload"; a present value is base64-decoded,
utf-8-decoded, percent-unquoted and JSON-parsed, and any stage failure is the
logged decode failure. -/
def decode_props_payload (cx : Codec) (soup : Soup) : DecodeOutcome :=
  match soup.dataProps with
  | Option.none => .noPayload
  | some raw =>
    if raw = "" then .noPayload
    else
      match cx.b64unquote raw with
      | Option.none => .decodeFailure
      | some jstr =>
        match cx.jloads jstr with
        | Option.none => .decodeFailure
        | some j => .ok j

/-! ## Vocabulary normalizer -/

/-- The `SAFETY_LABELS` dict literal. -/
def SAFETY_LABELS : List (String × String) :=
  [("serviceTab", "Service"),
   ("membershipTab", "Medlem"),
   ("usedCarWarrantyTab", "Bruktbilgaranti"),
   ("exchangeRightTab", "Bytterett"),
   ("programCarTab", "Programbil"),
   ("warrantyTab", "Garanti"),
   ("conditionReportTab", "Tilstand")]

/-- `SAFETY_LABELS.get(element, element)` for a string element. -/
def safetyGet (s : String) : String :=
  match List.lookup s SAFETY_LABELS with
  | some v => v
  | Option.none => s

/-- `SAFETY_LABELS.get(element, element)` for a dynamic element: strings are
looked up, other hashable values pass through, unhashable values (lists,
dicts) raise `TypeError`. -/
def normElem : PyVal → Except String PyVal
  | .str s => .ok (.str (safetyGet s))
  | .list _ => .error "TypeError: unhashable"
  | .dict _ => .error "TypeError: unhashable"
  | v => .ok v

/-- The list comprehension `[SAFETY_LABELS.get(e, e) for e in raw_elements]`:
elements left to right, first raise propagates. -/
def mapNorm : List PyVal → Except String (List PyVal)
  | [] => .ok []
  | v :: rest => do
    let w ← normElem v
    let ws ← mapNorm rest
    .ok (w :: ws)

/-- `normalize_safety_elements(raw_elements)`: falsy input (including `None`
and `[]`) yields `None`; otherwise the input is iterated (a string iterates
its characters, a dict its keys; non-iterables raise `TypeError`) and each
element is mapped through `SAFETY_LABELS.get(e, e)`. -/
def normalize_safety_elements (raw_elements : PyVal) : Except String PyVal :=
  if ¬ raw_elements.truthy then .ok .none
  else
    match raw_elements with
    | .list xs => (mapNorm xs).map PyVal.list
    | .str s => (mapNorm (s.data.map (fun c => PyVal.str (String.mk [c])))).map PyVal.list
    | .dict es => (mapNorm (es.map (fun p => PyVal.str p.1))).map PyVal.list
    | _ => .error "TypeError: not iterable"

/-! ## Payload field resolvers -/

/-- `parse_price_from_payload(ad_payload)`: falsy payload gives `None`; else
`price = ad_payload.get("price") or {}` and
`price.get("total") or price.get("main")` (the second `get` only evaluated
when the first is falsy). -/
def parse_price_from_payload (ad_payload : PyVal) : Except String PyVal :=
  if ¬ ad_payload.truthy then .ok .none
  else do
    let p0 ← ad_payload.get "price"
    let t ← (pyOr p0 (.dict [])).get "total"
    if t.truthy then .ok t else (pyOr p0 (.dict [])).get "main"

/-- `parse_brand_model(ad_payload)`: falsy payload gives `(None, None)`; else
brand is `(model_and_make.get("parent") or {}).get("value")` and model is
`model_and_make.get("value")` where
`model_and_make = ad_payload.get("model_and_make") or {}`. -/
def parse_brand_model (ad_payload : PyVal) : Except String (PyVal × PyVal) :=
  if ¬ ad_payload.truthy then .ok (.none, .none)
  else do
    let mm0 ← ad_payload.get "model_and_make"
    let model_make := pyOr mm0 (.dict [])
    let p0 ← model_make.get "parent"
    let brand ← (pyOr p0 (.dict [])).get "value"
    let model ← model_make.get "value"
    .ok (brand, model)

/-- `item.get("type") == "MONTHLY_PAYMENT"`. -/
def isMonthly (v : PyVal) : Bool :=
  match v with
  | .str s => decide (s = "MONTHLY_PAYMENT")
  | _ => false

/-- Python iteration over a dynamic value (`for item in price_spec`): lists
iterate elements, strings their characters, dicts their keys; other truthy
values raise `TypeError`. -/
def pyIter : PyVal → Except String (List PyVal)
  | .list xs => .ok xs
  | .str s => .ok (s.data.map (fun c => PyVal.str (String.mk [c])))
  | .dict es => .ok (es.map (fun p => PyVal.str p.1))
  | _ => .error "TypeError: not iterable"

/-- `any(item.get("type") == "MONTHLY_PAYMENT" for item in items)`:
short-circuits at the first match. -/
def anyMonthly : List PyVal → Except String Bool
  | [] => .ok false
  | i :: rest => do
    let t ← i.get "type"
    if isMonthly t then .ok true else anyMonthly rest

/-- `is_leasing_from_payload(ad_payload)`: falsy payload gives `None`; else
`True` when the lowercased `sales_form.value` contains "leasing" (a non-string
value raises at `.lower()`), else `True` when any `price_specification` entry
has type "MONTHLY_PAYMENT", else `False`. -/
def pyStrVal : PyVal → Except String String
  | .str s => .ok s
  | _ => .error "AttributeError: lower on non-str"

def is_leasing_from_payload (ad_payload : PyVal) : Except String PyVal :=
  if ¬ ad_payload.truthy then .ok .none
  else do
    let sf0 ← ad_payload.get "sales_form"
    let vv ← (pyOr sf0 (.dict [])).getD "value" (.str "")
    let s ← pyStrVal vv
    if pyContains "leasing" (pyLower s) then .ok (.bool true)
    else do
      let ps0 ← ad_payload.get "price_specification"
      let items ← pyIter (pyOr ps0 (.list []))
      let b ← anyMonthly items
      if b then .ok (.bool true) else .ok (.bool false)

/-! ## Record assembly (the module-level loop of `scraper.py`) -/

/-- `legacy_link = "https://www.finn.no/car/used/ad.html?finnkode="` -/
def legacy_link : String := "https://www.finn.no/car/used/ad.html?finnkode="

/-- `mobility_link = "https://www.finn.no/mobility/item/"` -/
def mobility_link : String := "https://www.finn.no/mobility/item/"

/-- One input file: its `file.stem` (the numeric identifier as a string) and
its parsed markup. -/
structure FileDoc where
  stem : String
  soup : Soup

/-- `(payload or {})`. -/
def payloadDict (payload : Option PyVal) : PyVal :=
  pyOr (optToVal payload) (.dict [])

/-- `if payload:` — truthiness of the decoded payload variable. -/
def payloadTruthy (payload : Option PyVal) : Bool :=
  (optToVal payload).truthy

/-- The per-document values computed before the `try:` block (lines 195–202):
a raised exception here is NOT caught and aborts the whole run. -/
structure Prologue where
  payload : Option PyVal
  payload_ad : PyVal
  payload_link : PyVal
  brand_from_payload : PyVal
  model_from_payload : PyVal

/-- The lazy `or` chain of lines 197–201: the payload's own truthy
`canonicalUrl` short-circuits; otherwise `payload_ad.get("canonical_url")` is
evaluated and, when falsy, the mobility URL is used. -/
def linkChain (cu payload_ad : PyVal) (stem : String) : Except String PyVal :=
  if cu.truthy then Except.ok cu
  else do
    let c2 ← payload_ad.get "canonical_url"
    Except.ok (pyOr c2 (.str (mobility_link ++ stem)))

/-- Lines 195–202: `payload = decode_props_payload(soup)`,
`payload_ad = (payload or {}).get("adData", {}).get("ad", {})`,
`payload_link = (payload or {}).get("canonicalUrl") or
payload_ad.get("canonical_url") or f"{mobility_link}{file.stem}"` (the second
`get` only evaluated when the first value is falsy), and
`parse_brand_model(payload_ad)`. -/
def adPrologue (cx : Codec) (soup : Soup) (stem : String) :
    Except String Prologue := do
  let payload := (decode_props_payload cx soup).toOption
  let a0 ← (payloadDict payload).getD "adData" (.dict [])
  let payload_ad ← a0.getD "ad" (.dict [])
  let cu ← (payloadDict payload).get "canonicalUrl"
  let payload_link ← linkChain cu payload_ad stem
  let bm ← parse_brand_model payload_ad
  Except.ok ⟨payload, payload_ad, payload_link, bm.1, bm.2⟩

/-- Argument `model_year=payload_ad.get("year") or get_model_year(soup)`. -/
def yearArg (payload_ad : PyVal) (soup : Soup) : Except String PyVal := do
  let y ← payload_ad.get "year"
  .ok (pyOr y (optIntToVal (get_model_year soup)))

/-- Argument `model_km=payload_ad.get("mileage") or get_model_km(soup)`. -/
def kmArg (payload_ad : PyVal) (soup : Soup) : Except String PyVal := do
  let y ← payload_ad.get "mileage"
  .ok (pyOr y (optIntToVal (get_model_km soup)))

/-- Argument `price=parse_price_from_payload(payload_ad) or get_price(soup)`. -/
def priceArg (cx : Codec) (payload_ad : PyVal) (soup : Soup) :
    Except String PyVal := do
  let p ← parse_price_from_payload payload_ad
  .ok (pyOr p (optIntToVal (get_price cx soup)))

/-- Argument `tldr=payload_ad.get("title") or get_tldr(soup)`. -/
def tldrArg (payload_ad : PyVal) (soup : Soup) : Except String PyVal := do
  let t ← payload_ad.get "title"
  .ok (pyOr t (optStrToVal (get_tldr soup)))

/-- Argument `brand=brand_from_payload or get_brand_type_id(soup)[0]`. -/
def brandArg (brand_from_payload : PyVal) (soup : Soup) : PyVal :=
  pyOr brand_from_payload (optStrToVal (get_brand_type_id soup).1)

/-- Argument `model=model_from_payload or get_brand_type_id(soup)[1]`. -/
def modelArg (model_from_payload : PyVal) (soup : Soup) : PyVal :=
  pyOr model_from_payload (optStrToVal (get_brand_type_id soup).2.1)

/-- Argument `link=payload_link if payload else legacy_link + str(file.stem)`. -/
def linkArg (pro : Prologue) (stem : String) : PyVal :=
  if payloadTruthy pro.payload then pro.payload_link
  else .str (legacy_link ++ stem)

/-- Argument `safety_elements=normalize_safety_elements((payload or
{}).get("safetyElements")) or get_safty_elements(soup)`. -/
def safetyArg (payload : Option PyVal) (soup : Soup) : Except String PyVal := do
  let se ← (payloadDict payload).get "safetyElements"
  let nz ← normalize_safety_elements se
  .ok (pyOr nz (optListStrToVal (get_safty_elements soup)))

/-- Argument `is_leasing=is_leasing_from_payload(payload_ad) or
get_leasing(soup)`. -/
def leasingArg (payload_ad : PyVal) (soup : Soup) : Except String PyVal := do
  let l ← is_leasing_from_payload payload_ad
  .ok (pyOr l (.bool (get_leasing soup)))

/-- `int(file.stem)` as evaluated inside the `try:` block. -/
def pyIntE (s : String) : Except String Int :=
  match pyInt? s with
  | some n => .ok n
  | Option.none => .error "ValueError: invalid literal for int"

/-- The body of the `try:` block (lines 204–220): evaluate the `Ad(...)`
arguments in source order and validate them against the pydantic schema.  Any
raise here is caught by the `except` of the loop. -/
def adTryBody (cx : Codec) (pro : Prologue) (soup : Soup) (stem : String) :
    Except String Ad := do
  let model_year ← coerceIntOpt (← yearArg pro.payload_ad soup)
  let model_km ← coerceIntOpt (← kmArg pro.payload_ad soup)
  let price ← coerceIntOpt (← priceArg cx pro.payload_ad soup)
  let tldr ← coerceStrOpt (← tldrArg pro.payload_ad soup)
  let brand ← coerceStrOpt (brandArg pro.brand_from_payload soup)
  let model ← coerceStrOpt (modelArg pro.model_from_payload soup)
  let idv ← pyIntE stem
  let link ← coerceStrOpt (linkArg pro stem)
  let safety ← coerceListStrOpt (← safetyArg pro.payload soup)
  let leasing ← coerceBoolOpt (← leasingArg pro.payload_ad soup)
  Except.ok
    { model_year := model_year, model_km := model_km, price := price,
      tldr := tldr, brand := brand, model := model, id := some idv,
      link := link, safety_elements := safety, is_leasing := leasing }

/-- What one loop iteration does with a document: prologue failures crash the
run, `try:`-body failures are logged and the document skipped, otherwise the
record is kept. -/
inductive DocResult where
  | crash (msg : String)
  | skipped (msg : String)
  | ok (ad : Ad)
deriving DecidableEq, Repr

/-- One iteration of `for file in files_list`. -/
def processDoc (cx : Codec) (f : FileDoc) : DocResult :=
  match adPrologue cx f.soup f.stem with
  | .error m => .crash m
  | .ok pro =>
    match adTryBody cx pro f.soup f.stem with
    | .error m => .skipped m
    | .ok ad => .ok ad

/-- The whole loop: the collected `ad_lst` in order, plus the stems of the
skipped (logged) documents in order; an uncaught (prologue) exception aborts
the run. -/
def runBatch (cx : Codec) : List FileDoc → Except String (List Ad × List String)
  | [] => .ok ([], [])
  | f :: rest =>
    match processDoc cx f with
    | .crash m => .error m
    | .skipped _ => (runBatch cx rest).map (fun p => (p.1, f.stem :: p.2))
    | .ok ad => (runBatch cx rest).map (fun p => (ad :: p.1, p.2))

/-- The post-hoc correction (lines 226–229): when a row's `tldr` is truthy and
contains "Touring", overwrite `model` with "Corolla Touring". -/
def touringFix (ad : Ad) : Ad :=
  match ad.tldr with
  | some t =>
    if t = "" then ad
    else if pyContains "Touring" t then { ad with model := some "Corolla Touring" }
    else ad
  | Option.none => ad

/-- The record set written to `ads.parquet`: the batch's records with the
Touring correction applied. -/
def finalRecords (cx : Codec) (files : List FileDoc) :
    Except String (List Ad) :=
  (runBatch cx files).map (fun p => p.1.map touringFix)

/-! ## General lemmas about the embedding -/

theorem bindE_ok {α β : Type} {x : Except String α} {f : α → Except String β}
    {b : β} : (x >>= f) = Except.ok b ↔ ∃ a, x = .ok a ∧ f a = .ok b := by
  cases x <;> simp [Bind.bind, Except.bind]

theorem mapE_ok {α β : Type} {x : Except String α} {f : α → β} {b : β} :
    Except.map f x = Except.ok b ↔ ∃ a, x = .ok a ∧ f a = b := by
  cases x <;> simp [Except.map]

@[simp] theorem pyOr_none (b : PyVal) : pyOr .none b = b := rfl

@[simp] theorem getD_empty (k : String) (d : PyVal) :
    PyVal.getD (.dict []) k d = .ok d := rfl

@[simp] theorem get_empty (k : String) :
    PyVal.get (.dict []) k = .ok .none := rfl

@[simp] theorem coerceIntOpt_optIntToVal (o : Option Int) :
    coerceIntOpt (optIntToVal o) = .ok o := by
  cases o <;> rfl

@[simp] theorem coerceStrOpt_optStrToVal (o : Option String) :
    coerceStrOpt (optStrToVal o) = .ok o := by
  cases o <;> rfl

theorem coerceStrList_map (xs : List String) :
    coerceStrList (xs.map .str) = .ok xs := by
  induction xs with
  | nil => rfl
  | cons x t ih => simp [coerceStrList, ih, Except.map]

@[simp] theorem coerceListStrOpt_optListStrToVal (o : Option (List String)) :
    coerceListStrOpt (optListStrToVal o) = .ok o := by
  cases o with
  | none => rfl
  | some xs => simp [optListStrToVal, coerceListStrOpt, coerceStrList_map, Except.map]

/-! ## Lemmas about the vocabulary normalizer -/

theorem lookup_mem {l : List (String × String)} {k v : String}
    (h : List.lookup k l = some v) : (k, v) ∈ l := by
  induction l with
  | nil => simp [List.lookup] at h
  | cons a t ih =>
    obtain ⟨a1, a2⟩ := a
    rw [List.lookup] at h
    cases hbeq : (k == a1) with
    | true =>
      rw [hbeq] at h
      simp only [Option.some.injEq] at h
      subst h
      exact (eq_of_beq hbeq) ▸ List.mem_cons_self _ _
    | false =>
      rw [hbeq] at h
      exact List.mem_cons_of_mem _ (ih h)

theorem safety_value_not_key :
    ∀ p ∈ SAFETY_LABELS, List.lookup p.2 SAFETY_LABELS = Option.none := by
  decide

theorem safetyGet_idem (s : String) : safetyGet (safetyGet s) = safetyGet s := by
  unfold safetyGet
  cases h : List.lookup s SAFETY_LABELS with
  | none => rw [h]
  | some v =>
    have hv := safety_value_not_key _ (lookup_mem h)
    simpa using hv ▸ rfl

theorem normElem_ok_idem {v w : PyVal} (h : normElem v = .ok w) :
    normElem w = .ok w := by
  cases v with
  | str s =>
    simp only [normElem, Except.ok.injEq] at h
    subst h
    simp [normElem, safetyGet_idem]
  | list xs => simp [normElem] at h
  | dict es => simp [normElem] at h
  | none => simp only [normElem, Except.ok.injEq] at h; subst h; rfl
  | bool b => simp only [normElem, Except.ok.injEq] at h; subst h; rfl
  | int n => simp only [normElem, Except.ok.injEq] at h; subst h; rfl

theorem mapNorm_idem {xs ys : List PyVal} (h : mapNorm xs = .ok ys) :
    mapNorm ys = .ok ys ∧ ys.length = xs.length := by
  induction xs generalizing ys with
  | nil =>
    simp only [mapNorm, Except.ok.injEq] at h
    subst h
    exact ⟨rfl, rfl⟩
  | cons v t ih =>
    rw [mapNorm] at h
    rw [bindE_ok] at h
    obtain ⟨w, hw, h⟩ := h
    rw [bindE_ok] at h
    obtain ⟨ws, hws, h⟩ := h
    simp only [Except.ok.injEq] at h
    subst h
    obtain ⟨ihm, ihl⟩ := ih hws
    refine ⟨?_, by simp [ihl]⟩
    rw [mapNorm, bindE_ok]
    exact ⟨w, normElem_ok_idem hw, by rw [bindE_ok]; exact ⟨ws, ihm, rfl⟩⟩

theorem normalize_of_mapNorm {ys : List PyVal} (hne : ys ≠ [])
    (hid : mapNorm ys = .ok ys) :
    normalize_safety_elements (.list ys) = .ok (.list ys) := by
  have htr : (PyVal.list ys).truthy = true := by
    simp [PyVal.truthy, hne]
  unfold normalize_safety_elements
  rw [if_neg (fun hc => hc htr)]
  show (mapNorm ys).map PyVal.list = .ok (.list ys)
  rw [hid]
  rfl

theorem string_data_ne {s : String} (h : s ≠ "") : s.data ≠ [] := by
  intro hd
  apply h
  cases s with
  | mk l =>
    simp only at hd
    subst hd
    rfl

theorem normalize_ok_idem {raw out : PyVal}
    (h : normalize_safety_elements raw = .ok out) :
    normalize_safety_elements out = .ok out := by
  unfold normalize_safety_elements at h
  split at h
  case isTrue =>
    simp only [Except.ok.injEq] at h
    subst h
    rfl
  case isFalse hne =>
    have htr : raw.truthy = true := by
      by_contra hc
      exact hne (by simpa using hc)
    cases raw with
    | none => simp [PyVal.truthy] at htr
    | bool b => simp at h
    | int n => simp at h
    | str s =>
      rw [mapE_ok] at h
      obtain ⟨ys, hys, hout⟩ := h
      subst hout
      obtain ⟨hidem, hlen⟩ := mapNorm_idem hys
      have hsne : s.data ≠ [] :=
        string_data_ne (by simpa [PyVal.truthy] using htr)
      refine normalize_of_mapNorm ?_ hidem
      intro h0
      subst h0
      simp only [List.length_nil, List.length_map] at hlen
      exact hsne (List.length_eq_zero.mp hlen.symm)
    | list xs =>
      rw [mapE_ok] at h
      obtain ⟨ys, hys, hout⟩ := h
      subst hout
      obtain ⟨hidem, hlen⟩ := mapNorm_idem hys
      have hxne : xs ≠ [] := by
        simpa [PyVal.truthy, List.isEmpty_iff] using htr
      refine normalize_of_mapNorm ?_ hidem
      intro h0
      subst h0
      simp only [List.length_nil] at hlen
      exact hxne (List.length_eq_zero.mp hlen.symm)
    | dict es =>
      rw [mapE_ok] at h
      obtain ⟨ys, hys, hout⟩ := h
      subst hout
      obtain ⟨hidem, hlen⟩ := mapNorm_idem hys
      have hxne : es ≠ [] := by
        simpa [PyVal.truthy, List.isEmpty_iff] using htr
      refine normalize_of_mapNorm ?_ hidem
      intro h0
      subst h0
      simp only [List.length_nil, List.length_map] at hlen
      exact hxne (List.length_eq_zero.mp hlen.symm)

theorem mapNorm_unmapped {xs : List String}
    (h : ∀ s ∈ xs, List.lookup s SAFETY_LABELS = Option.none) :
    mapNorm (xs.map .str) = .ok (xs.map .str) := by
  induction xs with
  | nil => rfl
  | cons x t ih =>
    have hx : safetyGet x = x := by
      unfold safetyGet
      rw [h x (List.mem_cons_self _ _)]
    rw [List.map_cons, mapNorm, bindE_ok]
    refine ⟨.str x, by simp [normElem, hx], ?_⟩
    rw [bindE_ok]
    exact ⟨t.map .str, ih (fun s hs => h s (List.mem_cons_of_mem _ hs)), rfl⟩

/-- C7: safety-elements normalization is idempotent — whenever
`normalize_safety_elements` succeeds, running it again on the result returns
the result unchanged — labels without an entry in the mapping table pass
through unchanged (element-wise and for whole label lists), and the mapping
table is the closed seven-entry table. -/
theorem C7_safety_normalization :
    (∀ raw out : PyVal, normalize_safety_elements raw = .ok out →
      normalize_safety_elements out = .ok out)
    ∧ (∀ s : String, List.lookup s SAFETY_LABELS = Option.none → safetyGet s = s)
    ∧ (∀ xs : List String, xs ≠ [] →
        (∀ s ∈ xs, List.lookup s SAFETY_LABELS = Option.none) →
        normalize_safety_elements (.list (xs.map .str)) = .ok (.list (xs.map .str)))
    ∧ SAFETY_LABELS.length = 7 := by
  refine ⟨fun raw out h => normalize_ok_idem h, ?_, ?_, rfl⟩
  · intro s hs
    unfold safetyGet
    rw [hs]
  · intro xs hne h
    refine normalize_of_mapNorm ?_ (mapNorm_unmapped h)
    simpa using hne

/-- Witness for C7: normalizing the already-normalized list
`["Service", "Custom"]` (the image of `["serviceTab", "Custom"]`) returns it
unchanged, and the unmapped label "Custom" passes through. -/
theorem C7_safety_normalization_witness :
    normalize_safety_elements (.list [.str "Service", .str "Custom"]) =
      .ok (.list [.str "Service", .str "Custom"])
    ∧ safetyGet "Custom" = "Custom" :=
  ⟨C7_safety_normalization.1 (.list [.str "serviceTab", .str "Custom"])
      (.list [.str "Service", .str "Custom"]) rfl,
   C7_safety_normalization.2.1 "Custom" rfl⟩

/-! ## Reduction lemmas for the assembly -/

@[simp] theorem ok_bind {α β : Type} (a : α) (f : α → Except String β) :
    (Except.ok a >>= f) = f a := rfl

@[simp] theorem truthy_pynone : (PyVal.none).truthy = false := rfl

@[simp] theorem truthy_empty_dict : (PyVal.dict []).truthy = false := rfl

@[simp] theorem parse_price_empty :
    parse_price_from_payload (.dict []) = .ok .none := rfl

@[simp] theorem parse_brand_model_empty :
    parse_brand_model (.dict []) = .ok (.none, .none) := rfl

@[simp] theorem ilp_empty :
    is_leasing_from_payload (.dict []) = .ok .none := rfl

@[simp] theorem normalize_pynone :
    normalize_safety_elements .none = .ok .none := rfl

@[simp] theorem coerceStrOpt_str (s : String) :
    coerceStrOpt (.str s) = .ok (some s) := rfl

@[simp] theorem coerceBoolOpt_bool (b : Bool) :
    coerceBoolOpt (.bool b) = .ok (some b) := rfl

@[simp] theorem payloadDict_none : payloadDict Option.none = .dict [] := rfl

@[simp] theorem payloadTruthy_none : payloadTruthy Option.none = false := rfl

/-- The prologue of a document with no decodable payload. -/
theorem adPrologue_noPayload {cx : Codec} {soup : Soup} {stem : String}
    (hdec : (decode_props_payload cx soup).toOption = Option.none) :
    adPrologue cx soup stem =
      .ok ⟨Option.none, .dict [], .str (mobility_link ++ stem), .none, .none⟩ := by
  unfold adPrologue
  rw [hdec]
  rfl

/-- The `try:` body of a document with no payload succeeds on every document
tree and every numeric stem, returning exactly the legacy extraction. -/
theorem adTryBody_noPayload {cx : Codec} {soup : Soup} {stem : String} {n : Int}
    (hstem : pyInt? stem = some n) :
    adTryBody cx ⟨Option.none, .dict [], .str (mobility_link ++ stem), .none, .none⟩
        soup stem =
      .ok { model_year := get_model_year soup, model_km := get_model_km soup,
            price := get_price cx soup, tldr := get_tldr soup,
            brand := (get_brand_type_id soup).1,
            model := (get_brand_type_id soup).2.1,
            id := some n, link := some (legacy_link ++ stem),
            safety_elements := get_safty_elements soup,
            is_leasing := some (get_leasing soup) } := by
  unfold adTryBody yearArg kmArg priceArg tldrArg brandArg modelArg linkArg
    safetyArg leasingArg
  simp [pyIntE, hstem, payloadTruthy, optToVal, pyOr_none]

/-- C6: every legacy field extractor is total — on a document with no payload,
for EVERY document tree (arbitrary query results, including malformed texts)
and numeric stem, record construction succeeds and each field is exactly the
legacy extractor's `Option` result; no per-field or per-strategy failure ever
propagates to the assembler. -/
theorem C6_legacy_extractors_total (cx : Codec) (stem : String) (soup : Soup)
    (n : Int) (hstem : pyInt? stem = some n)
    (hnp : soup.dataProps = Option.none) :
    processDoc cx ⟨stem, soup⟩ =
      .ok { model_year := get_model_year soup, model_km := get_model_km soup,
            price := get_price cx soup, tldr := get_tldr soup,
            brand := (get_brand_type_id soup).1,
            model := (get_brand_type_id soup).2.1,
            id := some n, link := some (legacy_link ++ stem),
            safety_elements := get_safty_elements soup,
            is_leasing := some (get_leasing soup) } := by
  have hdec : (decode_props_payload cx soup).toOption = Option.none := by
    unfold decode_props_payload
    rw [hnp]
    rfl
  unfold processDoc
  simp only [adPrologue_noPayload hdec, adTryBody_noPayload hstem]

/-- A document whose every landmark is missing. -/
def soupEmpty : Soup :=
  { dataProps := Option.none, topRow := fun _ => Option.none,
    tldr := Option.none, totalpris := Option.none, horseshoe := Option.none,
    carSearchAnchors := [], safetyUl := Option.none, fullText := "" }

/-- A codec that decodes nothing (no document in the batch needs it). -/
def codecEmpty : Codec :=
  { b64unquote := fun _ => Option.none, jloads := fun _ => Option.none }

/-- Witness for C6: a fully empty document with stem "123" is assembled into
the all-unknown record rather than being skipped. -/
theorem C6_legacy_extractors_total_witness :
    pyInt? "123" = some 123 ∧
    processDoc codecEmpty ⟨"123", soupEmpty⟩ =
      .ok { model_year := Option.none, model_km := Option.none,
            price := Option.none, tldr := Option.none, brand := Option.none,
            model := Option.none, id := some 123,
            link := some (legacy_link ++ "123"),
            safety_elements := Option.none, is_leasing := some false } :=
  ⟨by decide,
   (C6_legacy_extractors_total codecEmpty "123" soupEmpty 123 (by decide) rfl).trans
     (by rfl)⟩

/-- The pipeline depends on the document's payload attribute only through the
decoded payload option: two documents with the same legacy query results and
the same decoded payload option are processed identically. -/
theorem processDoc_congr {cx : Codec} {stem : String} {s1 s2 : Soup}
    (hdec : (decode_props_payload cx s1).toOption =
      (decode_props_payload cx s2).toOption)
    (htr : s1.topRow = s2.topRow) (htl : s1.tldr = s2.tldr)
    (hto : s1.totalpris = s2.totalpris) (hh : s1.horseshoe = s2.horseshoe)
    (hca : s1.carSearchAnchors = s2.carSearchAnchors)
    (hsu : s1.safetyUl = s2.safetyUl) (hft : s1.fullText = s2.fullText) :
    processDoc cx ⟨stem, s1⟩ = processDoc cx ⟨stem, s2⟩ := by
  have hmy : ∀ item, get_top_row_item item s1 = get_top_row_item item s2 := by
    intro item
    unfold get_top_row_item
    rw [htr]
  have hgp : get_price cx s1 = get_price cx s2 := by
    unfold get_price
    rw [hto, hh]
  have hgb : get_brand_type_id s1 = get_brand_type_id s2 := by
    unfold get_brand_type_id
    rw [hca]
  have hpro : adPrologue cx s1 stem = adPrologue cx s2 stem := by
    unfold adPrologue
    rw [hdec]
  have htb : ∀ pro, adTryBody cx pro s1 stem = adTryBody cx pro s2 stem := by
    intro pro
    unfold adTryBody yearArg kmArg priceArg tldrArg brandArg modelArg safetyArg
      leasingArg get_model_year get_model_km get_tldr get_safty_elements
      get_leasing
    simp only [hmy, hgp, hgb, htl, hsu, hft]
  unfold processDoc
  simp only
  rw [hpro]
  cases hp2 : adPrologue cx s2 stem with
  | error m => rfl
  | ok pro => simp only [htb pro]

/-- C2: the payload decoder reports "no payload" when the `data-props`
attribute is absent (or empty), reports the distinct "decode failure" outcome
when the attribute is present but either decoding stage (base64/utf-8/unquote
or JSON parsing) fails, and in both cases the caller processes the document
exactly as if it had no payload at all (full legacy extraction, no skip). -/
theorem C2_decoder_outcomes (cx : Codec) (soup : Soup) (stem : String) :
    (soup.dataProps = Option.none → decode_props_payload cx soup = .noPayload)
    ∧ (∀ raw, soup.dataProps = some raw → raw ≠ "" →
        cx.b64unquote raw = Option.none →
        decode_props_payload cx soup = .decodeFailure)
    ∧ (∀ raw s, soup.dataProps = some raw → raw ≠ "" →
        cx.b64unquote raw = some s → cx.jloads s = Option.none →
        decode_props_payload cx soup = .decodeFailure)
    ∧ DecodeOutcome.decodeFailure ≠ DecodeOutcome.noPayload
    ∧ ((decode_props_payload cx soup = .noPayload ∨
        decode_props_payload cx soup = .decodeFailure) →
        processDoc cx ⟨stem, soup⟩ =
          processDoc cx ⟨stem, { soup with dataProps := Option.none }⟩) := by
  refine ⟨?_, ?_, ?_, fun h => DecodeOutcome.noConfusion h, ?_⟩
  · intro h
    unfold decode_props_payload
    rw [h]
  · intro raw hr hne hb
    simp only [decode_props_payload, hr]
    rw [if_neg hne, hb]
  · intro raw s hr hne hb hj
    simp only [decode_props_payload, hr]
    rw [if_neg hne, hb]
    simp only [hj]
  · intro h
    refine processDoc_congr ?_ rfl rfl rfl rfl rfl rfl rfl
    have h2 : decode_props_payload cx { soup with dataProps := Option.none } =
        .noPayload := rfl
    rw [h2]
    rcases h with h1 | h1 <;> rw [h1] <;> rfl

/-- A document whose payload attribute holds undecodable data. -/
def soupBadProps : Soup := { soupEmpty with dataProps := some "bad" }

/-- Witness for C2: the undecodable attribute "bad" yields the decode-failure
outcome, and the document is processed exactly like its payload-free twin. -/
theorem C2_decoder_outcomes_witness :
    decode_props_payload codecEmpty soupBadProps = .decodeFailure
    ∧ processDoc codecEmpty ⟨"9", soupBadProps⟩ =
        processDoc codecEmpty ⟨"9", { soupBadProps with dataProps := Option.none }⟩ :=
  ⟨(C2_decoder_outcomes codecEmpty soupBadProps "9").2.1 "bad" rfl
      (by decide) rfl,
   (C2_decoder_outcomes codecEmpty soupBadProps "9").2.2.2.2
     (Or.inr ((C2_decoder_outcomes codecEmpty soupBadProps "9").2.1 "bad" rfl
        (by decide) rfl))⟩

/-- Inversion: a successfully processed document had a successful prologue. -/
theorem processDoc_ok_pro {cx : Codec} {f : FileDoc} {ad : Ad}
    (hok : processDoc cx f = .ok ad) :
    ∃ pro, adPrologue cx f.soup f.stem = .ok pro ∧
      adTryBody cx pro f.soup f.stem = .ok ad := by
  unfold processDoc at hok
  cases hp : adPrologue cx f.soup f.stem with
  | error m => rw [hp] at hok; exact absurd hok (by simp)
  | ok pro =>
    rw [hp] at hok
    simp only at hok
    cases hb : adTryBody cx pro f.soup f.stem with
    | error m => rw [hb] at hok; exact absurd hok (by simp)
    | ok ad2 =>
      rw [hb] at hok
      simp only [DocResult.ok.injEq] at hok
      exact ⟨pro, rfl, by rw [hb, hok]⟩

/-- Inversion of a successful `try:` body: every argument expression
evaluated, every field validated, and the record's fields are exactly the
validated values. -/
theorem adTryBody_ok_inv {cx : Codec} {pro : Prologue} {soup : Soup}
    {stem : String} {ad : Ad} (h : adTryBody cx pro soup stem = .ok ad) :
    ∃ yv kv pv tv sv lv,
      yearArg pro.payload_ad soup = .ok yv ∧
        coerceIntOpt yv = .ok ad.model_year ∧
      kmArg pro.payload_ad soup = .ok kv ∧
        coerceIntOpt kv = .ok ad.model_km ∧
      priceArg cx pro.payload_ad soup = .ok pv ∧
        coerceIntOpt pv = .ok ad.price ∧
      tldrArg pro.payload_ad soup = .ok tv ∧
        coerceStrOpt tv = .ok ad.tldr ∧
      coerceStrOpt (brandArg pro.brand_from_payload soup) = .ok ad.brand ∧
      coerceStrOpt (modelArg pro.model_from_payload soup) = .ok ad.model ∧
      (∃ n, pyIntE stem = .ok n ∧ ad.id = some n) ∧
      coerceStrOpt (linkArg pro stem) = .ok ad.link ∧
      safetyArg pro.payload soup = .ok sv ∧
        coerceListStrOpt sv = .ok ad.safety_elements ∧
      leasingArg pro.payload_ad soup = .ok lv ∧
        coerceBoolOpt lv = .ok ad.is_leasing := by
  unfold adTryBody at h
  simp only [bindE_ok, Except.ok.injEq] at h
  obtain ⟨yv, hy, my, hmy, kv, hk, mk, hmk, pv, hp, mp, hmp, tv, ht, mt, hmt,
    mb, hmb, mm, hmm, n, hn, ml, hml, sv, hs, ms, hms, lv, hl, mle, hmle,
    hrec⟩ := h
  subst hrec
  exact ⟨yv, kv, pv, tv, sv, lv, hy, hmy, hk, hmk, hp, hmp, ht, hmt, hmb,
    hmm, ⟨n, hn, rfl⟩, hml, hs, hms, hl, hmle⟩

/-- C10: normalizing an empty safety-elements list returns `None` rather than
an empty list, so a document whose payload carries `safetyElements: []` gets
its `safety_elements` field from legacy extraction, not an empty list. -/
theorem C10_empty_safety_falls_back (cx : Codec) (f : FileDoc) (pro : Prologue)
    (ad : Ad) (hpro : adPrologue cx f.soup f.stem = .ok pro)
    (hse : (payloadDict pro.payload).get "safetyElements" = .ok (.list []))
    (hok : processDoc cx f = .ok ad) :
    normalize_safety_elements (.list []) = .ok .none
    ∧ ad.safety_elements = get_safty_elements f.soup := by
  refine ⟨rfl, ?_⟩
  obtain ⟨pro2, hpro2, hbody⟩ := processDoc_ok_pro hok
  rw [hpro] at hpro2
  simp only [Except.ok.injEq] at hpro2
  subst hpro2
  obtain ⟨yv, kv, pv, tv, sv, lv, _, _, _, _, _, _, _, _, _, _, _, _,
    hs, hms, _, _⟩ := adTryBody_ok_inv hbody
  unfold safetyArg at hs
  rw [bindE_ok] at hs
  obtain ⟨se, hseg, hs⟩ := hs
  rw [hse] at hseg
  simp only [Except.ok.injEq] at hseg
  subst hseg
  rw [bindE_ok] at hs
  obtain ⟨nz, hnz, hs⟩ := hs
  have hnz0 : normalize_safety_elements (PyVal.list []) = .ok .none := rfl
  rw [hnz0] at hnz
  simp only [Except.ok.injEq] at hnz
  subst hnz
  simp only [pyOr_none, Except.ok.injEq] at hs
  subst hs
  rw [coerceListStrOpt_optListStrToVal] at hms
  simp only [Except.ok.injEq] at hms
  rw [hms]

/-- A codec whose every attribute decodes to a payload with an explicitly
empty `safetyElements` array. -/
def codecEmptySafety : Codec :=
  { b64unquote := fun _ => some "j",
    jloads := fun _ => some (.dict [("safetyElements", .list [])]) }

/-- A document carrying that payload, whose legacy safety landmark holds
["Service"]. -/
def soupEmptySafety : Soup :=
  { soupEmpty with dataProps := some "x", safetyUl := some ["Service"] }

/-- Witness for C10: the empty payload array is ignored and the legacy list
["Service"] lands in the record. -/
theorem C10_empty_safety_falls_back_witness :
    normalize_safety_elements (.list []) = .ok .none
    ∧ { model_year := Option.none, model_km := Option.none,
        price := Option.none, tldr := Option.none, brand := Option.none,
        model := Option.none, id := some 7,
        link := some (mobility_link ++ "7"),
        safety_elements := some ["Service"],
        is_leasing := some false : Ad }.safety_elements =
      get_safty_elements soupEmptySafety :=
  C10_empty_safety_falls_back codecEmptySafety ⟨"7", soupEmptySafety⟩
    ⟨some (.dict [("safetyElements", .list [])]), .dict [],
      .str (mobility_link ++ "7"), .none, .none⟩
    { model_year := Option.none, model_km := Option.none,
      price := Option.none, tldr := Option.none, brand := Option.none,
      model := Option.none, id := some 7, link := some (mobility_link ++ "7"),
      safety_elements := some ["Service"], is_leasing := some false }
    rfl rfl rfl

/-- `is_leasing_from_payload` only ever returns `None`, `True` or `False`. -/
theorem ileas_shape {v w : PyVal} (h : is_leasing_from_payload v = .ok w) :
    w = .none ∨ w = .bool true ∨ w = .bool false := by
  unfold is_leasing_from_payload at h
  split at h
  · simp only [Except.ok.injEq] at h
    exact Or.inl h.symm
  · rw [bindE_ok] at h
    obtain ⟨sf0, _, h⟩ := h
    rw [bindE_ok] at h
    obtain ⟨vv, _, h⟩ := h
    rw [bindE_ok] at h
    obtain ⟨s, _, h⟩ := h
    split at h
    · simp only [Except.ok.injEq] at h
      exact Or.inr (Or.inl h.symm)
    · rw [bindE_ok] at h
      obtain ⟨ps0, _, h⟩ := h
      rw [bindE_ok] at h
      obtain ⟨items, _, h⟩ := h
      rw [bindE_ok] at h
      obtain ⟨b, _, h⟩ := h
      split at h
      · simp only [Except.ok.injEq] at h
        exact Or.inr (Or.inl h.symm)
      · simp only [Except.ok.injEq] at h
        exact Or.inr (Or.inr h.symm)

/-- C8: in every assembled record `is_leasing` is an actual boolean, never
null; and when neither the payload leasing strategies nor the legacy
substring search find evidence, it is `false`. -/
theorem C8_is_leasing_boolean (cx : Codec) (f : FileDoc) (ad : Ad)
    (hok : processDoc cx f = .ok ad) :
    (∃ b, ad.is_leasing = some b)
    ∧ (∀ pro w, adPrologue cx f.soup f.stem = .ok pro →
        is_leasing_from_payload pro.payload_ad = .ok w → w ≠ .bool true →
        get_leasing f.soup = false → ad.is_leasing = some false) := by
  obtain ⟨pro, hpro, hbody⟩ := processDoc_ok_pro hok
  obtain ⟨yv, kv, pv, tv, sv, lv, _, _, _, _, _, _, _, _, _, _, _, _, _, _,
    hl, hml⟩ := adTryBody_ok_inv hbody
  unfold leasingArg at hl
  rw [bindE_ok] at hl
  obtain ⟨l, hlp, hl⟩ := hl
  simp only [Except.ok.injEq] at hl
  subst hl
  constructor
  · rcases ileas_shape hlp with h0 | h0 | h0 <;> subst h0
    · rw [pyOr_none] at hml
      rw [coerceBoolOpt_bool] at hml
      simp only [Except.ok.injEq] at hml
      exact ⟨_, hml.symm⟩
    · have : pyOr (.bool true) (.bool (get_leasing f.soup)) = .bool true := rfl
      rw [this, coerceBoolOpt_bool] at hml
      simp only [Except.ok.injEq] at hml
      exact ⟨_, hml.symm⟩
    · have : pyOr (.bool false) (.bool (get_leasing f.soup)) =
          .bool (get_leasing f.soup) := rfl
      rw [this, coerceBoolOpt_bool] at hml
      simp only [Except.ok.injEq] at hml
      exact ⟨_, hml.symm⟩
  · intro pro2 w hpro2 hw hwt hgl
    rw [hpro] at hpro2
    simp only [Except.ok.injEq] at hpro2
    subst hpro2
    rw [hlp] at hw
    simp only [Except.ok.injEq] at hw
    subst hw
    rcases ileas_shape hlp with h0 | h0 | h0
    · subst h0
      rw [pyOr_none, hgl, coerceBoolOpt_bool] at hml
      simp only [Except.ok.injEq] at hml
      exact hml.symm
    · exact absurd h0 hwt
    · subst h0
      have : pyOr (.bool false) (.bool (get_leasing f.soup)) =
          .bool (get_leasing f.soup) := rfl
      rw [this, hgl, coerceBoolOpt_bool] at hml
      simp only [Except.ok.injEq] at hml
      exact hml.symm

/-- The prologue of a payload-free document with the given stem. -/
def proNoPayload (stem : String) : Prologue :=
  ⟨Option.none, .dict [], .str (mobility_link ++ stem), .none, .none⟩

/-- The all-unknown legacy record for a payload-free empty document. -/
def emptyAd (n : Int) (stem : String) : Ad :=
  { model_year := Option.none, model_km := Option.none, price := Option.none,
    tldr := Option.none, brand := Option.none, model := Option.none,
    id := some n, link := some (legacy_link ++ stem),
    safety_elements := Option.none, is_leasing := some false }

/-- Witness for C8: the empty document yields `is_leasing = some false`. -/
theorem C8_is_leasing_boolean_witness :
    (emptyAd 1 "1").is_leasing = some false :=
  (C8_is_leasing_boolean codecEmpty ⟨"1", soupEmpty⟩ (emptyAd 1 "1") rfl).2
    (proNoPayload "1") .none rfl rfl (fun h => PyVal.noConfusion h) rfl

/-- The Touring correction never changes `tldr`. -/
theorem touringFix_tldr (b : Ad) : (touringFix b).tldr = b.tldr := by
  unfold touringFix
  cases hbt : b.tldr with
  | none => exact hbt
  | some t =>
    dsimp only
    split
    · exact hbt
    · split
      · rfl
      · exact hbt

/-- C4: every record in the final output whose summary (`tldr`) contains the
substring "Touring" has `model = "Corolla Touring"`, whatever brand/model
extraction and reconciliation produced before the correction. -/
theorem C4_touring_correction (cx : Codec) (files : List FileDoc)
    (ads : List Ad) (hfin : finalRecords cx files = .ok ads) :
    ∀ ad ∈ ads, ∀ t, ad.tldr = some t → pyContains "Touring" t = true →
      ad.model = some "Corolla Touring" := by
  intro ad had t htl hcont
  unfold finalRecords at hfin
  rw [mapE_ok] at hfin
  obtain ⟨p, _, hads⟩ := hfin
  subst hads
  rw [List.mem_map] at had
  obtain ⟨b, _, hadb⟩ := had
  subst hadb
  have hbt : b.tldr = some t := by rw [← touringFix_tldr, htl]
  have htne : t ≠ "" := by
    intro h0
    subst h0
    exact absurd hcont (by decide)
  unfold touringFix
  rw [hbt]
  simp only
  rw [if_neg htne, if_pos hcont]

/-- A codec whose every attribute decodes to a payload titled with a
"Touring" summary. -/
def codecTouring : Codec :=
  { b64unquote := fun _ => some "j",
    jloads := fun _ => some (.dict [("adData", .dict [("ad",
      .dict [("title", .str "Corolla Touring Sports 2021"),
             ("year", .int 2021)])])]) }

def soupTouring : Soup := { soupEmpty with dataProps := some "x" }

/-- The record the Touring document assembles to, after correction. -/
def sampleTouringAd : Ad :=
  { model_year := some 2021, model_km := Option.none, price := Option.none,
    tldr := some "Corolla Touring Sports 2021", brand := Option.none,
    model := some "Corolla Touring", id := some 5,
    link := some (mobility_link ++ "5"), safety_elements := Option.none,
    is_leasing := some false }

/-- Witness for C4: the concrete run's record has the corrected model. -/
theorem C4_touring_correction_witness :
    finalRecords codecTouring [⟨"5", soupTouring⟩] = .ok [sampleTouringAd]
    ∧ sampleTouringAd.model = some "Corolla Touring" :=
  ⟨rfl,
   C4_touring_correction codecTouring [⟨"5", soupTouring⟩] [sampleTouringAd]
     rfl sampleTouringAd (List.mem_singleton.mpr rfl)
     "Corolla Touring Sports 2021" rfl (by decide)⟩

/-- C5: a document whose record construction (the `try:` body — argument
evaluation or schema validation) fails is caught: its stem is logged, it
contributes no record, and the batch continues — the run's result is the
concatenation of the results on the documents before and after it. -/
theorem C5_skip_and_continue (cx : Codec) (xs ys : List FileDoc)
    (f : FileDoc) (pro : Prologue) (m : String)
    (hpro : adPrologue cx f.soup f.stem = .ok pro)
    (hfail : adTryBody cx pro f.soup f.stem = .error m) :
    runBatch cx (xs ++ f :: ys) =
      (runBatch cx xs).bind (fun p =>
        (runBatch cx ys).map (fun q =>
          (p.1 ++ q.1, p.2 ++ f.stem :: q.2))) := by
  have hskip : processDoc cx f = .skipped m := by
    unfold processDoc
    rw [hpro]
    simp only
    rw [hfail]
  induction xs with
  | nil =>
    simp only [List.nil_append, runBatch, hskip]
    cases hys : runBatch cx ys with
    | error e => rfl
    | ok q => rfl
  | cons x xs ih =>
    simp only [List.cons_append, runBatch]
    cases hpx : processDoc cx x with
    | crash m2 => rfl
    | skipped m2 =>
      dsimp only
      simp only [List.append_eq]
      rw [ih]
      cases hxs : runBatch cx xs with
      | error e => rfl
      | ok p =>
        cases hys : runBatch cx ys with
        | error e => rfl
        | ok q => simp [Except.map, Except.bind]
    | ok ad =>
      dsimp only
      simp only [List.append_eq]
      rw [ih]
      cases hxs : runBatch cx xs with
      | error e => rfl
      | ok p =>
        cases hys : runBatch cx ys with
        | error e => rfl
        | ok q => simp [Except.map, Except.bind]

/-- A codec whose every attribute decodes to a payload whose `year` cannot be
coerced to the schema's `int | None`. -/
def codecBadYear : Codec :=
  { b64unquote := fun _ => some "j",
    jloads := fun _ => some (.dict [("adData", .dict [("ad",
      .dict [("year", .str "notanumber")])])]) }

def fileBadYear : FileDoc := ⟨"13", { soupEmpty with dataProps := some "p" }⟩

/-- The prologue the bad-year document reaches before its `try:` body fails. -/
def proBadYear : Prologue :=
  ⟨some (.dict [("adData", .dict [("ad", .dict [("year", .str "notanumber")])])]),
   .dict [("year", .str "notanumber")], .str (mobility_link ++ "13"),
   .none, .none⟩

/-- Witness for C5: between two good documents, the bad one is skipped with
its stem logged and both neighbours still produce records. -/
theorem C5_skip_and_continue_witness :
    runBatch codecBadYear [⟨"1", soupEmpty⟩, fileBadYear, ⟨"2", soupEmpty⟩] =
      (runBatch codecBadYear [⟨"1", soupEmpty⟩]).bind (fun p =>
        (runBatch codecBadYear [⟨"2", soupEmpty⟩]).map (fun q =>
          (p.1 ++ q.1, p.2 ++ fileBadYear.stem :: q.2)))
    ∧ runBatch codecBadYear [⟨"1", soupEmpty⟩, fileBadYear, ⟨"2", soupEmpty⟩] =
      .ok ([emptyAd 1 "1", emptyAd 2 "2"], ["13"]) :=
  ⟨C5_skip_and_continue codecBadYear [⟨"1", soupEmpty⟩] [⟨"2", soupEmpty⟩]
     fileBadYear proBadYear "validation: int" rfl rfl,
   rfl⟩

theorem pyOr_pos {a : PyVal} (b : PyVal) (h : a.truthy = true) :
    pyOr a b = a := by
  unfold pyOr
  rw [if_pos h]

theorem pyOr_neg {a : PyVal} (b : PyVal) (h : a.truthy = false) :
    pyOr a b = b := by
  unfold pyOr
  rw [if_neg (by simp [h])]

/-- Reconciliation of an int-typed field: a truthy payload value is what gets
validated into the record; a falsy one lets the legacy value through. -/
theorem orFieldInt {v : PyVal} {legacy res : Option Int}
    (h : coerceIntOpt (pyOr v (optIntToVal legacy)) = .ok res) :
    (v.truthy = true → coerceIntOpt v = .ok res)
    ∧ (v.truthy = false → res = legacy) := by
  constructor
  · intro ht
    rwa [pyOr_pos _ ht] at h
  · intro hf
    rw [pyOr_neg _ hf, coerceIntOpt_optIntToVal] at h
    simp only [Except.ok.injEq] at h
    exact h.symm

/-- Reconciliation of a str-typed field, same shape. -/
theorem orFieldStr {v : PyVal} {legacy res : Option String}
    (h : coerceStrOpt (pyOr v (optStrToVal legacy)) = .ok res) :
    (v.truthy = true → coerceStrOpt v = .ok res)
    ∧ (v.truthy = false → res = legacy) := by
  constructor
  · intro ht
    rwa [pyOr_pos _ ht] at h
  · intro hf
    rw [pyOr_neg _ hf, coerceStrOpt_optStrToVal] at h
    simp only [Except.ok.injEq] at h
    exact h.symm

/-- Reconciliation of the `List[str]`-typed safety field, same shape. -/
theorem orFieldListStr {v : PyVal} {legacy res : Option (List String)}
    (h : coerceListStrOpt (pyOr v (optListStrToVal legacy)) = .ok res) :
    (v.truthy = true → coerceListStrOpt v = .ok res)
    ∧ (v.truthy = false → res = legacy) := by
  constructor
  · intro ht
    rwa [pyOr_pos _ ht] at h
  · intro hf
    rw [pyOr_neg _ hf, coerceListStrOpt_optListStrToVal] at h
    simp only [Except.ok.injEq] at h
    exact h.symm

/-- C9 (amended): when the mileage field of an output record is present it is
an integer obtained either by validating a truthy payload `mileage` value or
from the legacy labeled-row extractor; the code does not constrain its sign,
so it is non-negative exactly when the source value is (see the
counterexample for a negative payload mileage). -/
theorem C9_mileage_resolution (cx : Codec) (f : FileDoc) (pro : Prologue)
    (ad : Ad) (m : Int) (hpro : adPrologue cx f.soup f.stem = .ok pro)
    (hok : processDoc cx f = .ok ad) (hm : ad.model_km = some m) :
    ∀ mv, pro.payload_ad.get "mileage" = .ok mv →
      (mv.truthy = true → coerceIntOpt mv = .ok (some m))
      ∧ (mv.truthy = false → get_model_km f.soup = some m) := by
  intro mv hmv
  obtain ⟨pro2, hpro2, hbody⟩ := processDoc_ok_pro hok
  rw [hpro] at hpro2
  simp only [Except.ok.injEq] at hpro2
  subst hpro2
  obtain ⟨yv, kv, pv, tv, sv, lv, _, _, hk, hmk, _, _, _, _, _, _, _, _, _,
    _, _, _⟩ := adTryBody_ok_inv hbody
  unfold kmArg at hk
  rw [bindE_ok] at hk
  obtain ⟨y, hy, hk⟩ := hk
  rw [hmv] at hy
  simp only [Except.ok.injEq] at hy
  subst hy
  simp only [Except.ok.injEq] at hk
  subst hk
  rw [hm] at hmk
  obtain ⟨h1, h2⟩ := orFieldInt hmk
  exact ⟨h1, fun hf => ((h2 hf).symm : get_model_km f.soup = some m)⟩

/-- A codec whose every attribute decodes to a payload with mileage −7. -/
def codecNegKm : Codec :=
  { b64unquote := fun _ => some "j",
    jloads := fun _ => some (.dict [("adData", .dict [("ad",
      .dict [("mileage", .int (-7))])])]) }

def soupNegKm : Soup := { soupEmpty with dataProps := some "x" }

/-- The record the mileage-−7 document assembles to. -/
def adNegKm : Ad :=
  { model_year := Option.none, model_km := some (-7), price := Option.none,
    tldr := Option.none, brand := Option.none, model := Option.none,
    id := some 3, link := some (mobility_link ++ "3"),
    safety_elements := Option.none, is_leasing := some false }

/-- Counterexample for C9 as stated: a document whose payload carries
`mileage: -7` produces an output record with a PRESENT but NEGATIVE
`model_km`; nothing in the code enforces non-negativity. -/
theorem C9_mileage_resolution_cex :
    processDoc codecNegKm ⟨"3", soupNegKm⟩ = .ok adNegKm
    ∧ adNegKm.model_km = some (-7) ∧ (-7 : Int) < 0 :=
  ⟨rfl, rfl, by decide⟩

/-- Witness for C9's amended theorem, at the mileage-−7 document. -/
theorem C9_mileage_resolution_witness :
    coerceIntOpt (.int (-7)) = .ok (some (-7)) :=
  (C9_mileage_resolution codecNegKm ⟨"3", soupNegKm⟩
    ⟨some (.dict [("adData", .dict [("ad", .dict [("mileage", .int (-7))])])]),
      .dict [("mileage", .int (-7))], .str (mobility_link ++ "3"), .none, .none⟩
    adNegKm (-7) rfl rfl rfl (.int (-7)) rfl).1 rfl

/-- Inversion of a successful prologue: how each `Prologue` field was
computed, including the lazy canonical-URL priority chain. -/
theorem adPrologue_ok_inv {cx : Codec} {soup : Soup} {stem : String}
    {pro : Prologue} (h : adPrologue cx soup stem = .ok pro) :
    pro.payload = (decode_props_payload cx soup).toOption
    ∧ (∃ a0 cu,
        (payloadDict pro.payload).getD "adData" (.dict []) = .ok a0
        ∧ a0.getD "ad" (.dict []) = .ok pro.payload_ad
        ∧ (payloadDict pro.payload).get "canonicalUrl" = .ok cu
        ∧ ((cu.truthy = true ∧ pro.payload_link = cu)
          ∨ (cu.truthy = false ∧ ∃ c2,
              pro.payload_ad.get "canonical_url" = .ok c2
              ∧ pro.payload_link = pyOr c2 (.str (mobility_link ++ stem)))))
    ∧ parse_brand_model pro.payload_ad =
        .ok (pro.brand_from_payload, pro.model_from_payload) := by
  unfold adPrologue at h
  simp only [bindE_ok, Except.ok.injEq] at h
  obtain ⟨a0, ha0, pa, hpa, cu, hcu, pl, hpl, bm, hbm, hrec⟩ := h
  subst hrec
  refine ⟨rfl, ⟨a0, cu, ha0, hpa, hcu, ?_⟩, by rw [hbm]⟩
  unfold linkChain at hpl
  by_cases ht : cu.truthy = true
  · rw [if_pos ht] at hpl
    simp only [Except.ok.injEq] at hpl
    exact Or.inl ⟨ht, hpl.symm⟩
  · rw [if_neg ht] at hpl
    rw [bindE_ok] at hpl
    obtain ⟨c2, hc2, hpl⟩ := hpl
    simp only [Except.ok.injEq] at hpl
    exact Or.inr ⟨by simpa using ht, c2, hc2, hpl.symm⟩

/-- C3 (amended): the canonical link is resolved in priority order — the
payload's own truthy `canonicalUrl`, else the payload ad-data's truthy
`canonical_url`, else the new-site (mobility) template URL — whenever the
decoded payload is TRUTHY (a non-empty dict); when no payload decoded, or the
decoded payload is falsy (e.g. the empty dict — see the counterexample), the
legacy template URL is used. -/
theorem C3_link_priority (cx : Codec) (f : FileDoc) (pro : Prologue) (ad : Ad)
    (hpro : adPrologue cx f.soup f.stem = .ok pro)
    (hok : processDoc cx f = .ok ad) :
    (∀ cu, (payloadDict pro.payload).get "canonicalUrl" = .ok cu →
        cu.truthy = true → payloadTruthy pro.payload = true →
        coerceStrOpt cu = .ok ad.link)
    ∧ (∀ cu c2, (payloadDict pro.payload).get "canonicalUrl" = .ok cu →
        cu.truthy = false → pro.payload_ad.get "canonical_url" = .ok c2 →
        c2.truthy = true → payloadTruthy pro.payload = true →
        coerceStrOpt c2 = .ok ad.link)
    ∧ (∀ cu c2, (payloadDict pro.payload).get "canonicalUrl" = .ok cu →
        cu.truthy = false → pro.payload_ad.get "canonical_url" = .ok c2 →
        c2.truthy = false → payloadTruthy pro.payload = true →
        ad.link = some (mobility_link ++ f.stem))
    ∧ (payloadTruthy pro.payload = false →
        ad.link = some (legacy_link ++ f.stem)) := by
  obtain ⟨pro2, hpro2, hbody⟩ := processDoc_ok_pro hok
  rw [hpro] at hpro2
  simp only [Except.ok.injEq] at hpro2
  subst hpro2
  obtain ⟨yv, kv, pv, tv, sv, lv, _, _, _, _, _, _, _, _, _, _, _, hlink, _,
    _, _, _⟩ := adTryBody_ok_inv hbody
  obtain ⟨hpay, ⟨a0, cu0, _, _, hcu0, hchain⟩, _⟩ := adPrologue_ok_inv hpro
  refine ⟨?_, ?_, ?_, ?_⟩
  · intro cu hcu htru hpt
    rw [hcu0] at hcu
    simp only [Except.ok.injEq] at hcu
    subst hcu
    rcases hchain with ⟨_, hpl⟩ | ⟨hfal, _⟩
    · unfold linkArg at hlink
      rw [if_pos hpt, hpl] at hlink
      exact hlink
    · rw [htru] at hfal
      exact absurd hfal (by simp)
  · intro cu c2 hcu hfal hc2 htru hpt
    rw [hcu0] at hcu
    simp only [Except.ok.injEq] at hcu
    subst hcu
    rcases hchain with ⟨htru0, _⟩ | ⟨_, c2b, hc2b, hpl⟩
    · rw [hfal] at htru0
      exact absurd htru0 (by simp)
    · rw [hc2b] at hc2
      simp only [Except.ok.injEq] at hc2
      subst hc2
      unfold linkArg at hlink
      rw [if_pos hpt, hpl, pyOr_pos _ htru] at hlink
      exact hlink
  · intro cu c2 hcu hfal hc2 hfal2 hpt
    rw [hcu0] at hcu
    simp only [Except.ok.injEq] at hcu
    subst hcu
    rcases hchain with ⟨htru0, _⟩ | ⟨_, c2b, hc2b, hpl⟩
    · rw [hfal] at htru0
      exact absurd htru0 (by simp)
    · rw [hc2b] at hc2
      simp only [Except.ok.injEq] at hc2
      subst hc2
      unfold linkArg at hlink
      rw [if_pos hpt, hpl, pyOr_neg _ hfal2, coerceStrOpt_str] at hlink
      simp only [Except.ok.injEq] at hlink
      exact hlink.symm
  · intro hpf
    unfold linkArg at hlink
    rw [if_neg (by simp [hpf]), coerceStrOpt_str] at hlink
    simp only [Except.ok.injEq] at hlink
    exact hlink.symm

/-- A codec whose every attribute decodes to the EMPTY JSON object. -/
def codecEmptyPayload : Codec :=
  { b64unquote := fun _ => some "\x7b\x7d",
    jloads := fun _ => some (.dict []) }

def soupC3 : Soup := { soupEmpty with dataProps := some "x" }

/-- Counterexample for C3 as stated: a payload IS present (the attribute
decodes successfully, to `{}`), yet the record's link uses the LEGACY
template, not the new-site template — the code tests the payload's
truthiness, not its presence. -/
theorem C3_link_priority_cex :
    decode_props_payload codecEmptyPayload soupC3 = .ok (.dict [])
    ∧ processDoc codecEmptyPayload ⟨"1", soupC3⟩ = .ok (emptyAd 1 "1")
    ∧ (emptyAd 1 "1").link = some (legacy_link ++ "1")
    ∧ legacy_link ++ "1" ≠ mobility_link ++ "1" :=
  ⟨rfl, rfl, rfl, by decide⟩

/-- A codec decoding to a payload with a top-level canonical URL. -/
def codecCanonical : Codec :=
  { b64unquote := fun _ => some "j",
    jloads := fun _ => some (.dict [("canonicalUrl", .str "https://x/1")]) }

/-- The record of the canonical-URL document. -/
def adCanonical : Ad :=
  { model_year := Option.none, model_km := Option.none, price := Option.none,
    tldr := Option.none, brand := Option.none, model := Option.none,
    id := some 8, link := some "https://x/1",
    safety_elements := Option.none, is_leasing := some false }

/-- Witness for C3's amended theorem: the payload's own canonical URL wins. -/
theorem C3_link_priority_witness :
    coerceStrOpt (.str "https://x/1") = .ok adCanonical.link :=
  (C3_link_priority codecCanonical ⟨"8", { soupEmpty with dataProps := some "x" }⟩
    ⟨some (.dict [("canonicalUrl", .str "https://x/1")]), .dict [],
      .str "https://x/1", .none, .none⟩
    adCanonical rfl rfl).1 (.str "https://x/1") rfl rfl rfl

/-- How `parse_price_from_payload` behaves given the values of the nested
`price.total` / `price.main` lookups: a truthy total is returned; otherwise
the `main` value is. -/
theorem parse_price_char {pa pd tv : PyVal} (hpd : pa.get "price" = .ok pd)
    (htv : (pyOr pd (.dict [])).get "total" = .ok tv) :
    (tv.truthy = true → parse_price_from_payload pa = .ok tv)
    ∧ (∀ mv, tv.truthy = false → (pyOr pd (.dict [])).get "main" = .ok mv →
        parse_price_from_payload pa = .ok mv) := by
  cases pa <;> try exact Except.noConfusion hpd
  case dict es =>
    by_cases hes : (PyVal.dict es).truthy = true
    · constructor
      · intro ht
        unfold parse_price_from_payload
        rw [if_neg (fun hc => hc hes)]
        rw [hpd, ok_bind, htv, ok_bind, if_pos ht]
      · intro mv hf hmv
        unfold parse_price_from_payload
        rw [if_neg (fun hc => hc hes)]
        rw [hpd, ok_bind, htv, ok_bind, if_neg (by simp [hf]), hmv]
    · have hes2 : (PyVal.dict es).truthy = false := by
        simpa using hes
      have hes0 : es = [] := by
        simpa [PyVal.truthy, List.isEmpty_iff] using hes2
      subst hes0
      rw [get_empty] at hpd
      simp only [Except.ok.injEq] at hpd
      subst hpd
      rw [pyOr_none, get_empty] at htv
      simp only [Except.ok.injEq] at htv
      subst htv
      refine ⟨fun ht => by simp at ht, ?_⟩
      intro mv hf hmv
      rw [pyOr_none, get_empty] at hmv
      simp only [Except.ok.injEq] at hmv
      subst hmv
      rfl

/-- C1 (amended): for every reconciled field — year, mileage, price, summary,
brand, model, safety elements and the leasing flag — a truthy
(non-empty/non-zero) payload-derived value is what gets validated into the
record, and a falsy or missing one lets the legacy-derived value through.
For the price field in particular: a non-zero payload `price.total` strictly
overrides the legacy price; a `price.total` of exactly zero falls through to
the payload's `price.main` when that is a non-zero int, and only when `main`
is also falsy/missing does it fall through to the legacy price. -/
theorem C1_field_reconciliation (cx : Codec) (f : FileDoc) (pro : Prologue)
    (ad : Ad) (hpro : adPrologue cx f.soup f.stem = .ok pro)
    (hok : processDoc cx f = .ok ad) :
    (∀ yv, pro.payload_ad.get "year" = .ok yv →
        (yv.truthy = true → coerceIntOpt yv = .ok ad.model_year)
        ∧ (yv.truthy = false → ad.model_year = get_model_year f.soup))
    ∧ (∀ kv, pro.payload_ad.get "mileage" = .ok kv →
        (kv.truthy = true → coerceIntOpt kv = .ok ad.model_km)
        ∧ (kv.truthy = false → ad.model_km = get_model_km f.soup))
    ∧ (∀ pp, parse_price_from_payload pro.payload_ad = .ok pp →
        (pp.truthy = true → coerceIntOpt pp = .ok ad.price)
        ∧ (pp.truthy = false → ad.price = get_price cx f.soup))
    ∧ (∀ tv, pro.payload_ad.get "title" = .ok tv →
        (tv.truthy = true → coerceStrOpt tv = .ok ad.tldr)
        ∧ (tv.truthy = false → ad.tldr = get_tldr f.soup))
    ∧ ((pro.brand_from_payload.truthy = true →
          coerceStrOpt pro.brand_from_payload = .ok ad.brand)
      ∧ (pro.brand_from_payload.truthy = false →
          ad.brand = (get_brand_type_id f.soup).1))
    ∧ ((pro.model_from_payload.truthy = true →
          coerceStrOpt pro.model_from_payload = .ok ad.model)
      ∧ (pro.model_from_payload.truthy = false →
          ad.model = (get_brand_type_id f.soup).2.1))
    ∧ (∀ se nz, (payloadDict pro.payload).get "safetyElements" = .ok se →
        normalize_safety_elements se = .ok nz →
        (nz.truthy = true → coerceListStrOpt nz = .ok ad.safety_elements)
        ∧ (nz.truthy = false →
            ad.safety_elements = get_safty_elements f.soup))
    ∧ (∀ w, is_leasing_from_payload pro.payload_ad = .ok w →
        (w.truthy = true → coerceBoolOpt w = .ok ad.is_leasing)
        ∧ (w.truthy = false → ad.is_leasing = some (get_leasing f.soup)))
    ∧ (∀ pd tv, pro.payload_ad.get "price" = .ok pd →
        (pyOr pd (.dict [])).get "total" = .ok tv →
        (∀ n : Int, tv = .int n → n ≠ 0 → ad.price = some n)
        ∧ (∀ mv, tv = .int 0 → (pyOr pd (.dict [])).get "main" = .ok mv →
            (mv.truthy = false → ad.price = get_price cx f.soup)
            ∧ (∀ k : Int, mv = .int k → k ≠ 0 → ad.price = some k))) := by
  obtain ⟨pro2, hpro2, hbody⟩ := processDoc_ok_pro hok
  rw [hpro] at hpro2
  simp only [Except.ok.injEq] at hpro2
  subst hpro2
  obtain ⟨yv0, kv0, pv0, tv0, sv0, lv0, hya, hmy, hka, hmk, hpa, hmp, hta,
    hmt, hmb, hmm, _, _, hsa, hmsv, hla, hmlv⟩ := adTryBody_ok_inv hbody
  have Hyear : ∀ yv, pro.payload_ad.get "year" = .ok yv →
      (yv.truthy = true → coerceIntOpt yv = .ok ad.model_year)
      ∧ (yv.truthy = false → ad.model_year = get_model_year f.soup) := by
    intro yv hyv
    unfold yearArg at hya
    rw [bindE_ok] at hya
    obtain ⟨y, hy2, hya⟩ := hya
    rw [hyv] at hy2
    simp only [Except.ok.injEq] at hy2
    subst hy2
    simp only [Except.ok.injEq] at hya
    subst hya
    exact orFieldInt hmy
  have Hkm : ∀ kv, pro.payload_ad.get "mileage" = .ok kv →
      (kv.truthy = true → coerceIntOpt kv = .ok ad.model_km)
      ∧ (kv.truthy = false → ad.model_km = get_model_km f.soup) := by
    intro kv hkv
    unfold kmArg at hka
    rw [bindE_ok] at hka
    obtain ⟨y, hy2, hka⟩ := hka
    rw [hkv] at hy2
    simp only [Except.ok.injEq] at hy2
    subst hy2
    simp only [Except.ok.injEq] at hka
    subst hka
    exact orFieldInt hmk
  have Hprice : ∀ pp, parse_price_from_payload pro.payload_ad = .ok pp →
      (pp.truthy = true → coerceIntOpt pp = .ok ad.price)
      ∧ (pp.truthy = false → ad.price = get_price cx f.soup) := by
    intro pp hpp
    unfold priceArg at hpa
    rw [bindE_ok] at hpa
    obtain ⟨y, hy2, hpa⟩ := hpa
    rw [hpp] at hy2
    simp only [Except.ok.injEq] at hy2
    subst hy2
    simp only [Except.ok.injEq] at hpa
    subst hpa
    exact orFieldInt hmp
  have Htldr : ∀ tv, pro.payload_ad.get "title" = .ok tv →
      (tv.truthy = true → coerceStrOpt tv = .ok ad.tldr)
      ∧ (tv.truthy = false → ad.tldr = get_tldr f.soup) := by
    intro tv htv
    unfold tldrArg at hta
    rw [bindE_ok] at hta
    obtain ⟨y, hy2, hta⟩ := hta
    rw [htv] at hy2
    simp only [Except.ok.injEq] at hy2
    subst hy2
    simp only [Except.ok.injEq] at hta
    subst hta
    exact orFieldStr hmt
  have Hsafety : ∀ se nz,
      (payloadDict pro.payload).get "safetyElements" = .ok se →
      normalize_safety_elements se = .ok nz →
      (nz.truthy = true → coerceListStrOpt nz = .ok ad.safety_elements)
      ∧ (nz.truthy = false →
          ad.safety_elements = get_safty_elements f.soup) := by
    intro se nz hse hnz
    unfold safetyArg at hsa
    rw [bindE_ok] at hsa
    obtain ⟨se2, hse2, hsa⟩ := hsa
    rw [hse] at hse2
    simp only [Except.ok.injEq] at hse2
    subst hse2
    rw [bindE_ok] at hsa
    obtain ⟨nz2, hnz2, hsa⟩ := hsa
    rw [hnz] at hnz2
    simp only [Except.ok.injEq] at hnz2
    subst hnz2
    simp only [Except.ok.injEq] at hsa
    subst hsa
    exact orFieldListStr hmsv
  have Hleasing : ∀ w, is_leasing_from_payload pro.payload_ad = .ok w →
      (w.truthy = true → coerceBoolOpt w = .ok ad.is_leasing)
      ∧ (w.truthy = false → ad.is_leasing = some (get_leasing f.soup)) := by
    intro w hw
    unfold leasingArg at hla
    rw [bindE_ok] at hla
    obtain ⟨l, hl2, hla⟩ := hla
    rw [hw] at hl2
    simp only [Except.ok.injEq] at hl2
    subst hl2
    simp only [Except.ok.injEq] at hla
    subst hla
    constructor
    · intro ht
      rwa [pyOr_pos _ ht] at hmlv
    · intro hf
      rw [pyOr_neg _ hf, coerceBoolOpt_bool] at hmlv
      simp only [Except.ok.injEq] at hmlv
      exact hmlv.symm
  refine ⟨Hyear, Hkm, Hprice, Htldr, ?_, ?_, Hsafety, Hleasing, ?_⟩
  · unfold brandArg at hmb
    exact orFieldStr hmb
  · unfold modelArg at hmm
    exact orFieldStr hmm
  · intro pd tv hpd htv
    constructor
    · intro n htn hn0
      subst htn
      have htt : (PyVal.int n).truthy = true := by
        simp [PyVal.truthy, hn0]
      have hpp := (parse_price_char hpd htv).1 htt
      have hco := (Hprice _ hpp).1 htt
      simp only [coerceIntOpt, Except.ok.injEq] at hco
      exact hco.symm
    · intro mv ht0 hmv
      subst ht0
      have hft : (PyVal.int 0).truthy = false := by decide
      have hppm := (parse_price_char hpd htv).2 mv hft hmv
      constructor
      · intro hmf
        exact (Hprice _ hppm).2 hmf
      · intro k hk hk0
        subst hk
        have hco := (Hprice _ hppm).1 (by simp [PyVal.truthy, hk0])
        simp only [coerceIntOpt, Except.ok.injEq] at hco
        exact hco.symm

/-- Codec decoding to a payload whose price has total 0 and main 100. -/
def codecZeroTotal : Codec :=
  { b64unquote := fun _ => some "j",
    jloads := fun _ => some (.dict [("adData", .dict [("ad",
      .dict [("price", .dict [("total", .int 0), ("main", .int 100)])])])]) }

/-- A document with that payload whose legacy price label reads "200 kr". -/
def soupZeroTotal : Soup :=
  { soupEmpty with dataProps := some "x", totalpris := some "200 kr" }

/-- The record the zero-total document assembles to. -/
def adZeroTotal : Ad :=
  { model_year := Option.none, model_km := Option.none, price := some 100,
    tldr := Option.none, brand := Option.none, model := Option.none,
    id := some 4, link := some (mobility_link ++ "4"),
    safety_elements := Option.none, is_leasing := some false }

/-- Counterexample for C1 as stated: with payload `total = 0` the reconciled
price is the payload's `main` (100), NOT the legacy price (200) — a zero
total falls through to `main` first and reaches the legacy price only when
`main` is also falsy. -/
theorem C1_field_reconciliation_cex :
    processDoc codecZeroTotal ⟨"4", soupZeroTotal⟩ = .ok adZeroTotal
    ∧ (pyOr (.dict [("total", .int 0), ("main", .int 100)])
        (.dict [])).get "total" = .ok (.int 0)
    ∧ get_price codecZeroTotal soupZeroTotal = some 200
    ∧ adZeroTotal.price = some 100
    ∧ some (100 : Int) ≠ some (200 : Int) :=
  ⟨rfl, rfl, rfl, rfl, by decide⟩

/-- Codec decoding to a payload whose price total is 250000. -/
def codecBigTotal : Codec :=
  { b64unquote := fun _ => some "j",
    jloads := fun _ => some (.dict [("adData", .dict [("ad",
      .dict [("price", .dict [("total", .int 250000)])])])]) }

/-- The record of the total-250000 document (legacy label also "200 kr"). -/
def adBigTotal : Ad :=
  { model_year := Option.none, model_km := Option.none, price := some 250000,
    tldr := Option.none, brand := Option.none, model := Option.none,
    id := some 6, link := some (mobility_link ++ "6"),
    safety_elements := Option.none, is_leasing := some false }

/-- The total-250000 document: payload price plus a legacy "200 kr" label. -/
def soupBigTotal : Soup :=
  { soupEmpty with dataProps := some "x", totalpris := some "200 kr" }

/-- The prologue of the total-250000 document. -/
def proBigTotal : Prologue :=
  ⟨some (.dict [("adData", .dict [("ad",
      .dict [("price", .dict [("total", .int 250000)])])])]),
    .dict [("price", .dict [("total", .int 250000)])],
    .str (mobility_link ++ "6"), .none, .none⟩

/-- Witness for C1's amended theorem at one concrete document: a non-zero
payload total (250000) strictly overrides the legacy price (200), the falsy
payload safety value falls through to legacy safety extraction, and the falsy
payload leasing value falls through to the legacy substring search. -/
theorem C1_field_reconciliation_witness :
    adBigTotal.price = some 250000
    ∧ get_price codecBigTotal soupBigTotal = some 200
    ∧ adBigTotal.safety_elements = get_safty_elements soupBigTotal
    ∧ adBigTotal.is_leasing = some (get_leasing soupBigTotal) :=
  ⟨((C1_field_reconciliation codecBigTotal ⟨"6", soupBigTotal⟩ proBigTotal
      adBigTotal rfl rfl).2.2.2.2.2.2.2.2
      (.dict [("total", .int 250000)]) (.int 250000) rfl rfl).1
    250000 rfl (by decide),
   rfl,
   ((C1_field_reconciliation codecBigTotal ⟨"6", soupBigTotal⟩ proBigTotal
      adBigTotal rfl rfl).2.2.2.2.2.2.1 .none .none rfl rfl).2 rfl,
   ((C1_field_reconciliation codecBigTotal ⟨"6", soupBigTotal⟩ proBigTotal
      adBigTotal rfl rfl).2.2.2.2.2.2.2.1 (.bool false) rfl).2 rfl⟩
